import Mathlib

/-!
Pre-flop poker advisor (`PokerDecisionTree.cpp`)

A shallow embedding of the decision procedure of `PokerDecisionTree.cpp` and
proofs about it.

Modelling conventions.

* `int` values (ranks, `handStrength`, `playersCalled`) are mathematical
  integers.  The only `int` arithmetic of the program is `rank1 + rank2` and
  `rank1 - rank2`; signed overflow is undefined behaviour in C++, so the
  model describes the executions in which these two values are representable.
* `double` values are exact rationals ("exact arithmetic").  The one place
  where a finite input yields a non-finite `double` is the division by
  `toCall` in `calculatePotOdds`; its result is therefore a `DoubleVal`,
  which adds `+inf`, `-inf` and `NaN` to the rationals.  A rational has one
  zero, a `double` has two: the rational `toCall = 0` stands for `+0.0`, and
  the call with `toCall = -0.0` (which also compares equal to zero) is modelled
  by `calculatePotOddsNegZero` and `makeDecisionNegZero`.
* `std::string` is `String`.
* The linked `DecisionNode` graph is a tree of values with optional children
  (`nullptr` is `none`); dereferencing `nullptr` makes `makeDecision` return
  `none`.  What `makeDecision` writes to `std::cout` is returned as a
  `Report`, next to the updated tree.
-/

namespace PokerDecisionTree

/-! ## Data model -/

/-- Result of a `double` computation whose operands are finite: a finite
value, one of the two infinities, or `NaN`. -/
inductive DoubleVal where
  | fin (q : ℚ)
  | posInf
  | negInf
  | nan
  deriving DecidableEq

/-- IEEE division `a / b` of two finite values (`b` a positive zero when it is
zero). -/
def DoubleVal.ofDiv (a b : ℚ) : DoubleVal :=
  if b = 0 then
    if a > 0 then .posInf else if a < 0 then .negInf else .nan
  else .fin (a / b)

/-- IEEE division `a / -0.0` of a finite value by the negative zero: the
infinity of the opposite sign, `NaN` for a zero `a`. -/
def DoubleVal.ofDivNegZero (a : ℚ) : DoubleVal :=
  if a > 0 then .negInf else if a < 0 then .posInf else .nan

/-- IEEE multiplication `d * c` by a finite positive constant `c`. -/
def DoubleVal.scale (d : DoubleVal) (c : ℚ) : DoubleVal :=
  match d with
  | .fin q => .fin (q * c)
  | .posInf => .posInf
  | .negInf => .negInf
  | .nan => .nan

/-- IEEE comparison `d > c` with a finite constant `c`. -/
def DoubleVal.gt (d : DoubleVal) (c : ℚ) : Bool :=
  match d with
  | .fin q => decide (q > c)
  | .posInf => true
  | .negInf => false
  | .nan => false

/-- `struct DecisionNode`: an action, a raise amount and three child
pointers. -/
inductive DecisionNode where
  | mk (action : String) (raiseAmount : ℚ)
      (favorableOdds moderateOdds unfavorableOdds : Option DecisionNode)

/-- Field `action`. -/
def DecisionNode.action : DecisionNode → String
  | .mk a _ _ _ _ => a

/-- Field `raiseAmount`. -/
def DecisionNode.raiseAmount : DecisionNode → ℚ
  | .mk _ r _ _ _ => r

/-- Field `favorableOdds`. -/
def DecisionNode.favorableOdds : DecisionNode → Option DecisionNode
  | .mk _ _ f _ _ => f

/-- Field `moderateOdds`. -/
def DecisionNode.moderateOdds : DecisionNode → Option DecisionNode
  | .mk _ _ _ m _ => m

/-- Field `unfavorableOdds`. -/
def DecisionNode.unfavorableOdds : DecisionNode → Option DecisionNode
  | .mk _ _ _ _ u => u

/-- The constructor `DecisionNode(act, raise = 0)`: all children `nullptr`. -/
def DecisionNode.new (act : String) (raise : ℚ) : DecisionNode :=
  .mk act raise none none none

/-- Assignment `node->raiseAmount = r`. -/
def DecisionNode.setRaiseAmount : DecisionNode → ℚ → DecisionNode
  | .mk a _ f m u, r => .mk a r f m u

/-- The three child slots of a node. -/
inductive Branch where
  | favorable
  | moderate
  | unfavorable
  deriving DecidableEq

/-- Read the child pointer stored in a slot. -/
def DecisionNode.child (n : DecisionNode) : Branch → Option DecisionNode
  | .favorable => n.favorableOdds
  | .moderate => n.moderateOdds
  | .unfavorable => n.unfavorableOdds

/-- Replace the node a child pointer refers to (a write through the
pointer). -/
def DecisionNode.setChild : DecisionNode → Branch → DecisionNode → DecisionNode
  | .mk a r _ m u, .favorable, c => .mk a r (some c) m u
  | .mk a r f _ u, .moderate, c => .mk a r f (some c) u
  | .mk a r f m _, .unfavorable, c => .mk a r f m (some c)

/-- What `makeDecision` prints: the pot odds, the action of the selected node
and, for a raise, the amount. -/
structure Report where
  potOdds : DoubleVal
  action : String
  amount : Option ℚ
  deriving DecidableEq

/-! ## The functions of the program -/

/-- `calculatePotOdds`: `(potSize / toCall) * 100`. -/
def calculatePotOdds (potSize toCall : ℚ) : DoubleVal :=
  (DoubleVal.ofDiv potSize toCall).scale 100

/-- `evaluateHandStrength`. -/
def evaluateHandStrength (rank1 rank2 : ℤ) (suit1 suit2 : String) : ℤ :=
  if rank1 = rank2 ∧ rank1 ≥ 13 then 12
  else if rank1 = rank2 then 10
  else if (rank1 = 14 ∧ rank2 ≥ 11) ∨ (rank2 = 14 ∧ rank1 ≥ 11) then 9
  else if suit1 = suit2 ∧ rank1 + rank2 > 15 then 8
  else if suit1 = suit2 ∧ |rank1 - rank2| = 1 then 7
  else if rank1 + rank2 > 12 then 6
  else if |rank1 - rank2| = 1 then 5
  else 3

/-- `std::round`: the nearest integer, halfway cases away from zero. -/
def stdRound (x : ℚ) : ℤ :=
  if 0 ≤ x then ⌊x + 1 / 2⌋ else -⌊-x + 1 / 2⌋

/-- The value of the local `raiseAmount` of `calculateRaiseAmount` just before
it is rounded. -/
def unroundedRaiseAmount (potSize : ℚ) (handStrength playersCalled : ℤ)
    (potOdds : DoubleVal) : ℚ :=
  let raiseAmount := potSize
  let raiseAmount :=
    if handStrength ≥ 12 then raiseAmount * 3
    else if handStrength > 7 then raiseAmount * (3 / 2)
    else raiseAmount
  let raiseAmount := if potOdds.gt 100 then raiseAmount * (3 / 2) else raiseAmount
  raiseAmount + (playersCalled : ℚ) * (1 / 10) * potSize

/-- `calculateRaiseAmount`. -/
def calculateRaiseAmount (potSize : ℚ) (handStrength playersCalled : ℤ)
    (potOdds : DoubleVal) : ℚ :=
  let raiseAmount := unroundedRaiseAmount potSize handStrength playersCalled potOdds
  (stdRound (raiseAmount * 2) : ℚ) / 2

/-- `estimatePotSize`. -/
def estimatePotSize (smallBlind bigBlind : ℚ) (playersCalled : ℤ) : ℚ :=
  smallBlind + bigBlind + (playersCalled : ℚ) * bigBlind

/-- The `if / else if` chain of `makeDecision`: which child of the root becomes
`current`. -/
def selectBranch (handStrength : ℤ) (potOdds : DoubleVal) (isSuited : Bool) : Branch :=
  if handStrength ≥ 12 then .favorable
  else if handStrength ≥ 9 ∧ potOdds.gt 50 then .favorable
  else if handStrength ≥ 7 ∧ potOdds.gt 50 ∧ isSuited then .favorable
  else if handStrength > 5 ∧ potOdds.gt 50 then .moderate
  else .unfavorable

/-- The body of `makeDecision` after its first statement, for the value
`potOdds` that statement has computed: the updated tree and the printed
report, or `none` when the selected child pointer is `nullptr`. -/
def makeDecisionFrom (root : DecisionNode) (handStrength : ℤ) (potSize : ℚ)
    (potOdds : DoubleVal) (playersCalled : ℤ) (isSuited : Bool) :
    Option (DecisionNode × Report) :=
  let b := selectBranch handStrength potOdds isSuited
  match root.child b with
  | none => none
  | some current =>
    if current.action = "raise" then
      let current := current.setRaiseAmount
        (calculateRaiseAmount potSize handStrength playersCalled potOdds)
      some (root.setChild b current,
        { potOdds := potOdds, action := current.action,
          amount := some current.raiseAmount })
    else
      some (root, { potOdds := potOdds, action := current.action, amount := none })

/-- `makeDecision`: `potOdds = calculatePotOdds(potSize, toCall)`, then the rest
of the body. -/
def makeDecision (root : DecisionNode) (handStrength : ℤ) (potSize toCall : ℚ)
    (playersCalled : ℤ) (isSuited : Bool) : Option (DecisionNode × Report) :=
  makeDecisionFrom root handStrength potSize (calculatePotOdds potSize toCall)
    playersCalled isSuited

/-- `calculatePotOdds(potSize, -0.0)`: `(potSize / -0.0) * 100`. -/
def calculatePotOddsNegZero (potSize : ℚ) : DoubleVal :=
  (DoubleVal.ofDivNegZero potSize).scale 100

/-- `makeDecision` called with `toCall = -0.0`. -/
def makeDecisionNegZero (root : DecisionNode) (handStrength : ℤ) (potSize : ℚ)
    (playersCalled : ℤ) (isSuited : Bool) : Option (DecisionNode × Report) :=
  makeDecisionFrom root handStrength potSize (calculatePotOddsNegZero potSize)
    playersCalled isSuited

/-- The tree `main` builds: a `"start"` root whose favorable, moderate and
unfavorable children are fresh `"raise"`, `"call"` and `"fold"` nodes. -/
def mainTree : DecisionNode :=
  (((DecisionNode.new "start" 0).setChild .favorable (DecisionNode.new "raise" 0)).setChild
    .moderate (DecisionNode.new "call" 0)).setChild .unfavorable (DecisionNode.new "fold" 0)

/-- The calls `main` makes after reading its input: pot size, hand strength,
suitedness, then `makeDecision` on the tree. -/
def mainPipeline (root : DecisionNode) (rank1 rank2 : ℤ) (suit1 suit2 : String)
    (smallBlind bigBlind : ℚ) (playersCalled : ℤ) (toCall : ℚ) :
    Option (DecisionNode × Report) :=
  let potSize := estimatePotSize smallBlind bigBlind playersCalled
  let handStrength := evaluateHandStrength rank1 rank2 suit1 suit2
  let isSuited := decide (suit1 = suit2)
  makeDecision root handStrength potSize toCall playersCalled isSuited

/-! ## Tree state across calls -/

mutual
/-- The tree with every stored `raiseAmount` reset to 0: two trees differ only
in stored `raiseAmount` fields exactly when this maps them to the same tree. -/
def DecisionNode.eraseRaiseAmounts : DecisionNode → DecisionNode
  | .mk a _ f m u =>
    .mk a 0 (eraseRaiseAmountsOpt f) (eraseRaiseAmountsOpt m) (eraseRaiseAmountsOpt u)
/-- The same reset below a child pointer. -/
def eraseRaiseAmountsOpt : Option DecisionNode → Option DecisionNode
  | none => none
  | some n => some n.eraseRaiseAmounts
end

/-- The arguments of one call of `makeDecision`, the tree apart. -/
structure DecisionInput where
  handStrength : ℤ
  potSize : ℚ
  toCall : ℚ
  playersCalled : ℤ
  isSuited : Bool

/-- A sequence of calls of `makeDecision` on the same tree, each one working on
the tree the previous one left; the result is the tree after the last call. -/
def runCalls (root : DecisionNode) : List DecisionInput → Option DecisionNode
  | [] => some root
  | c :: rest =>
    match makeDecision root c.handStrength c.potSize c.toCall c.playersCalled c.isSuited with
    | none => none
    | some (root1, _) => runCalls root1 rest

/-! ## Specification-side definitions -/

/-- The value of the first rule whose condition holds, `dflt` when none
does. -/
def firstMatch {α : Type} (dflt : α) : List (Bool × α) → α
  | [] => dflt
  | (c, v) :: rest => if c then v else firstMatch dflt rest

/-- The ordered rule list of the hand-strength evaluator as the specification
words it (rules 1 to 7; rule 8 is the default of `firstMatch`). -/
def handStrengthRules (r1 r2 : ℤ) (s1 s2 : String) : List (Bool × ℤ) :=
  [ (decide (r1 = r2 ∧ r1 ≥ 13), 12),
    (decide (r1 = r2), 10),
    (decide ((r1 = 14 ∧ r2 ≥ 11) ∨ (r2 = 14 ∧ r1 ≥ 11)), 9),
    (decide (s1 = s2 ∧ r1 + r2 > 15), 8),
    (decide (s1 = s2 ∧ |r1 - r2| = 1), 7),
    (decide (r1 + r2 > 12), 6),
    (decide (|r1 - r2| = 1), 5) ]

/-- The ordered rule list of the decision selector as the specification words
it (rules 1 to 4; rule 5, fold, is the default of `firstMatch`). -/
def decisionRules (handStrength : ℤ) (potOdds : ℚ) (isSuited : Bool) :
    List (Bool × String) :=
  [ (decide (handStrength ≥ 12), "raise"),
    (decide (handStrength ≥ 9 ∧ potOdds > 50), "raise"),
    (decide (handStrength ≥ 7 ∧ potOdds > 50 ∧ isSuited = true), "raise"),
    (decide (handStrength > 5 ∧ potOdds > 50), "call") ]

/-- The action the decision selector of the specification chooses. -/
def specAction (handStrength : ℤ) (potOdds : ℚ) (isSuited : Bool) : String :=
  firstMatch "fold" (decisionRules handStrength potOdds isSuited)

/-- Rounding to the nearest integer with ties away from zero, as the
specification words it: the nearest integer of the magnitude, with the sign put
back. -/
def roundHalfAwayFromZero (x : ℚ) : ℤ :=
  if x < 0 then -round (-x) else round x

/-- The strength multiplier `m1` of the raise-sizing formula. -/
def strengthMultiplier (handStrength : ℤ) : ℚ :=
  if handStrength ≥ 12 then 3
  else if 7 < handStrength ∧ handStrength < 12 then 3 / 2
  else 1

/-- The pot-odds multiplier `m2` of the raise-sizing formula. -/
def oddsMultiplier (potOdds : ℚ) : ℚ :=
  if potOdds > 100 then 3 / 2 else 1

/-- The unrounded amount `base` of the raise-sizing formula. -/
def specBase (potSize : ℚ) (handStrength playersCalled : ℤ) (potOdds : ℚ) : ℚ :=
  potSize * strengthMultiplier handStrength * oddsMultiplier potOdds
    + (playersCalled : ℚ) * (1 / 10) * potSize

/-- The raise-sizing formula `round(2 * base) / 2`. -/
def specRaiseAmount (potSize : ℚ) (handStrength playersCalled : ℤ) (potOdds : ℚ) : ℚ :=
  (roundHalfAwayFromZero (2 * specBase potSize handStrength playersCalled potOdds) : ℚ) / 2

end PokerDecisionTree

namespace PokerDecisionTree

/-! ## Hand strength -/

/-- C1: for all integer ranks and all suits, `evaluateHandStrength` equals the
result of the ordered first-match-wins rule list (rules 1 to 7, otherwise
3). -/
theorem evaluateHandStrength_eq_firstMatch (r1 r2 : ℤ) (s1 s2 : String) :
    evaluateHandStrength r1 r2 s1 s2 = firstMatch 3 (handStrengthRules r1 r2 s1 s2) := by
  simp only [evaluateHandStrength, handStrengthRules, firstMatch, decide_eq_true_eq]

/-- C4: hand strength is symmetric under swapping the two cards. -/
theorem evaluateHandStrength_swap (r1 r2 : ℤ) (s1 s2 : String) :
    evaluateHandStrength r1 r2 s1 s2 = evaluateHandStrength r2 r1 s2 s1 := by
  have hs : (s2 = s1) = (s1 = s2) := propext eq_comm
  have hr : (r2 = r1) = (r1 = r2) := propext eq_comm
  have hor : ((r2 = 14 ∧ r1 ≥ 11) ∨ (r1 = 14 ∧ r2 ≥ 11)) =
      ((r1 = 14 ∧ r2 ≥ 11) ∨ (r2 = 14 ∧ r1 ≥ 11)) := propext or_comm
  unfold evaluateHandStrength
  simp only [hs, hr, hor, abs_sub_comm r2 r1, add_comm r2 r1]
  by_cases h : r1 = r2
  · subst h
    rfl
  · simp only [h, false_and, if_false]

/-- C5: a pair scores 12 when its rank is at least 13 and 10 otherwise,
whatever the suits. -/
theorem evaluateHandStrength_pair (r : ℤ) (s1 s2 : String) :
    (r ≥ 13 → evaluateHandStrength r r s1 s2 = 12) ∧
      (r < 13 → evaluateHandStrength r r s1 s2 = 10) := by
  constructor
  · intro h
    simp [evaluateHandStrength, h]
  · intro h
    have h13 : ¬ r ≥ 13 := not_le.mpr h
    simp [evaluateHandStrength, h13]

/-- Witness for C5: a pair of Aces in two suits scores 12, a pair of sevens
scores 10. -/
theorem evaluateHandStrength_pair_witness :
    evaluateHandStrength 14 14 "H" "S" = 12 ∧ evaluateHandStrength 7 7 "H" "S" = 10 :=
  ⟨(evaluateHandStrength_pair 14 "H" "S").1 (by decide),
    (evaluateHandStrength_pair 7 "H" "S").2 (by decide)⟩

/-! ## Rounding -/

/-- For a non-negative argument `std::round` is `⌊x + 1/2⌋`. -/
theorem stdRound_of_nonneg {x : ℚ} (hx : 0 ≤ x) : stdRound x = ⌊x + 1 / 2⌋ := by
  simp [stdRound, hx]

/-- For a negative argument `std::round` is `-⌊-x + 1/2⌋`. -/
theorem stdRound_of_neg {x : ℚ} (hx : x < 0) : stdRound x = -⌊-x + 1 / 2⌋ := by
  simp [stdRound, not_le.mpr hx]

/-- The model of `std::round` agrees with rounding to nearest, ties away from
zero. -/
theorem stdRound_eq_roundHalfAwayFromZero (x : ℚ) :
    stdRound x = roundHalfAwayFromZero x := by
  unfold roundHalfAwayFromZero
  by_cases hx : x < 0
  · rw [if_pos hx, stdRound_of_neg hx, round_eq]
  · rw [if_neg hx, stdRound_of_nonneg (not_lt.mp hx), round_eq]

/-- The result of `std::round` is within one half of its argument. -/
theorem abs_stdRound_sub_le (x : ℚ) : |(stdRound x : ℚ) - x| ≤ 1 / 2 := by
  rw [abs_le]
  by_cases hx : 0 ≤ x
  · rw [stdRound_of_nonneg hx]
    have h1 := Int.floor_le (x + 1 / 2)
    have h2 := Int.lt_floor_add_one (x + 1 / 2)
    constructor <;> linarith
  · rw [stdRound_of_neg (not_le.mp hx)]
    have h1 := Int.floor_le (-x + 1 / 2)
    have h2 := Int.lt_floor_add_one (-x + 1 / 2)
    push_cast
    constructor <;> linarith

/-- A positive tie `n + 1/2` is rounded up to `n + 1`. -/
theorem stdRound_tie_pos (n : ℤ) (h : 0 < (n : ℚ) + 1 / 2) :
    stdRound ((n : ℚ) + 1 / 2) = n + 1 := by
  rw [stdRound_of_nonneg h.le]
  have : (n : ℚ) + 1 / 2 + 1 / 2 = ((n + 1 : ℤ) : ℚ) := by push_cast; ring
  rw [this, Int.floor_intCast]

/-- A negative tie `n + 1/2` is rounded down to `n`. -/
theorem stdRound_tie_neg (n : ℤ) (h : (n : ℚ) + 1 / 2 < 0) :
    stdRound ((n : ℚ) + 1 / 2) = n := by
  rw [stdRound_of_neg h]
  have : -((n : ℚ) + 1 / 2) + 1 / 2 = ((-n : ℤ) : ℚ) := by push_cast; ring
  rw [this, Int.floor_intCast, neg_neg]

/-! ## Raise sizing -/

/-- The unrounded amount of the code is the `base` of the formula. -/
theorem unroundedRaiseAmount_eq_specBase (potSize : ℚ) (handStrength playersCalled : ℤ)
    (potOdds : ℚ) :
    unroundedRaiseAmount potSize handStrength playersCalled (.fin potOdds) =
      specBase potSize handStrength playersCalled potOdds := by
  unfold unroundedRaiseAmount specBase strengthMultiplier oddsMultiplier DoubleVal.gt
  simp only [decide_eq_true_eq]
  by_cases h12 : handStrength ≥ 12
  · by_cases ho : potOdds > 100 <;> (simp only [h12, ho, if_true, if_false]; try ring)
  · by_cases h7 : handStrength > 7
    · have hlt : handStrength < 12 := not_le.mp h12
      have h7' : 7 < handStrength := h7
      by_cases ho : potOdds > 100 <;>
        (simp only [h12, h7, h7', hlt, and_self, ho, if_true, if_false]; try ring)
    · have h7' : ¬ 7 < handStrength := h7
      by_cases ho : potOdds > 100 <;>
        (simp only [h12, h7, h7', false_and, ho, if_true, if_false]; try ring)

/-- C3: over exact arithmetic `calculateRaiseAmount` returns
`round(2 * base) / 2` with `base = potSize * m1 * m2 + playersCalled * 0.1 *
potSize`; in particular for `handStrength >= 12` and `potOdds > 100` both
multipliers apply (`4.5 * potSize`) and the per-caller term uses the original
`potSize`. -/
theorem calculateRaiseAmount_eq_spec (potSize : ℚ) (handStrength playersCalled : ℤ)
    (potOdds : ℚ) :
    calculateRaiseAmount potSize handStrength playersCalled (.fin potOdds) =
        specRaiseAmount potSize handStrength playersCalled potOdds ∧
      (handStrength ≥ 12 → potOdds > 100 →
        calculateRaiseAmount potSize handStrength playersCalled (.fin potOdds) =
          (roundHalfAwayFromZero
            (2 * (9 / 2 * potSize + (playersCalled : ℚ) * (1 / 10) * potSize)) : ℚ) / 2) := by
  have key : calculateRaiseAmount potSize handStrength playersCalled (.fin potOdds) =
      specRaiseAmount potSize handStrength playersCalled potOdds := by
    unfold calculateRaiseAmount specRaiseAmount
    simp only [unroundedRaiseAmount_eq_specBase, stdRound_eq_roundHalfAwayFromZero]
    rw [mul_comm]
  refine ⟨key, fun h12 ho => ?_⟩
  rw [key]
  unfold specRaiseAmount specBase strengthMultiplier oddsMultiplier
  rw [if_pos h12, if_pos ho]
  congr 3
  ring

/-- Witness for C3: pot 10, strength 12, one caller, pot odds 150 gives
`round(2 * 46) / 2 = 46`. -/
theorem calculateRaiseAmount_eq_spec_witness :
    calculateRaiseAmount 10 12 1 (.fin 150) =
      (roundHalfAwayFromZero (2 * (9 / 2 * 10 + ((1 : ℤ) : ℚ) * (1 / 10) * 10)) : ℚ) / 2 :=
  (calculateRaiseAmount_eq_spec 10 12 1 150).2 (by decide) (by norm_num)

/-- C6: the amount `calculateRaiseAmount` returns is a multiple of 0.5: twice
the result is an integer. -/
theorem calculateRaiseAmount_half_multiple (potSize : ℚ) (handStrength playersCalled : ℤ)
    (potOdds : DoubleVal) :
    ∃ n : ℤ, 2 * calculateRaiseAmount potSize handStrength playersCalled potOdds = (n : ℚ) := by
  refine ⟨stdRound (unroundedRaiseAmount potSize handStrength playersCalled potOdds * 2), ?_⟩
  unfold calculateRaiseAmount
  ring

/-- C7: `calculateRaiseAmount` rounds the unrounded amount `base` to the
nearest 0.5 with ties away from zero: the result is within 0.25 of `base`, a
tie `2 * base = n + 1/2` gives `(n + 1) / 2` for positive and `n / 2` for
negative `base`, and pot sizes 0.25 and -0.25 (strength 3, no callers, pot
odds 0) give 0.5 and -0.5. -/
theorem calculateRaiseAmount_rounding (potSize : ℚ) (handStrength playersCalled : ℤ)
    (potOdds : DoubleVal) :
    |calculateRaiseAmount potSize handStrength playersCalled potOdds
        - unroundedRaiseAmount potSize handStrength playersCalled potOdds| ≤ 1 / 4 ∧
      (∀ n : ℤ,
        2 * unroundedRaiseAmount potSize handStrength playersCalled potOdds = (n : ℚ) + 1 / 2 →
        (unroundedRaiseAmount potSize handStrength playersCalled potOdds > 0 →
          calculateRaiseAmount potSize handStrength playersCalled potOdds = ((n : ℚ) + 1) / 2) ∧
        (unroundedRaiseAmount potSize handStrength playersCalled potOdds < 0 →
          calculateRaiseAmount potSize handStrength playersCalled potOdds = (n : ℚ) / 2)) ∧
      calculateRaiseAmount (1 / 4) 3 0 (.fin 0) = 1 / 2 ∧
      calculateRaiseAmount (-1 / 4) 3 0 (.fin 0) = -1 / 2 := by
  refine ⟨?_, ?_, ?_, ?_⟩
  · unfold calculateRaiseAmount
    have h := abs_stdRound_sub_le
      (unroundedRaiseAmount potSize handStrength playersCalled potOdds * 2)
    rw [abs_le] at h ⊢
    constructor <;> linarith [h.1, h.2]
  · intro n hn
    have hb : unroundedRaiseAmount potSize handStrength playersCalled potOdds * 2 =
        (n : ℚ) + 1 / 2 := by rw [mul_comm]; exact hn
    unfold calculateRaiseAmount
    simp only [hb]
    constructor
    · intro hpos
      rw [stdRound_tie_pos n (by linarith)]
      push_cast
      ring
    · intro hneg
      rw [stdRound_tie_neg n (by linarith)]
  · norm_num [calculateRaiseAmount, unroundedRaiseAmount, DoubleVal.gt, stdRound]
  · norm_num [calculateRaiseAmount, unroundedRaiseAmount, DoubleVal.gt, stdRound]

/-- Witness for C7: pot size 0.25 is the tie `2 * base = 0 + 1/2` and rounds
up to `(0 + 1) / 2`. -/
theorem calculateRaiseAmount_rounding_witness :
    calculateRaiseAmount (1 / 4) 3 0 (.fin 0) = (((0 : ℤ) : ℚ) + 1) / 2 :=
  ((calculateRaiseAmount_rounding (1 / 4) 3 0 (.fin 0)).2.1 0
    (by norm_num [unroundedRaiseAmount, DoubleVal.gt])).1
    (by norm_num [unroundedRaiseAmount, DoubleVal.gt])

/-! ## Decision selector -/

/-- With a non-zero `toCall` the pot odds are the finite value
`potSize / toCall * 100`. -/
theorem calculatePotOdds_of_ne_zero (potSize : ℚ) {toCall : ℚ} (h : toCall ≠ 0) :
    calculatePotOdds potSize toCall = .fin (potSize / toCall * 100) := by
  simp [calculatePotOdds, DoubleVal.ofDiv, DoubleVal.scale, h]

/-- On the tree of `main` the favorable branch prints a raise and stores the
computed amount in the raise node, whatever value the pot odds have. -/
theorem makeDecisionFrom_mainTree_favorable (handStrength : ℤ) (potSize : ℚ)
    (potOdds : DoubleVal) (playersCalled : ℤ) (isSuited : Bool)
    (hb : selectBranch handStrength potOdds isSuited = .favorable) :
    makeDecisionFrom mainTree handStrength potSize potOdds playersCalled isSuited =
      some (mainTree.setChild .favorable ((DecisionNode.new "raise" 0).setRaiseAmount
          (calculateRaiseAmount potSize handStrength playersCalled potOdds)),
        { potOdds := potOdds, action := "raise",
          amount := some (calculateRaiseAmount potSize handStrength playersCalled potOdds) }) := by
  simp [makeDecisionFrom, hb, mainTree, DecisionNode.child, DecisionNode.setChild,
    DecisionNode.new, DecisionNode.favorableOdds, DecisionNode.action,
    DecisionNode.setRaiseAmount, DecisionNode.raiseAmount]

/-- On the tree of `main` the moderate branch prints a call and leaves the tree
as it is, whatever value the pot odds have. -/
theorem makeDecisionFrom_mainTree_moderate (handStrength : ℤ) (potSize : ℚ)
    (potOdds : DoubleVal) (playersCalled : ℤ) (isSuited : Bool)
    (hb : selectBranch handStrength potOdds isSuited = .moderate) :
    makeDecisionFrom mainTree handStrength potSize potOdds playersCalled isSuited =
      some (mainTree, { potOdds := potOdds, action := "call", amount := none }) := by
  simp [makeDecisionFrom, hb, mainTree, DecisionNode.child, DecisionNode.setChild,
    DecisionNode.new, DecisionNode.moderateOdds, DecisionNode.action]

/-- On the tree of `main` the unfavorable branch prints a fold and leaves the
tree as it is, whatever value the pot odds have. -/
theorem makeDecisionFrom_mainTree_unfavorable (handStrength : ℤ) (potSize : ℚ)
    (potOdds : DoubleVal) (playersCalled : ℤ) (isSuited : Bool)
    (hb : selectBranch handStrength potOdds isSuited = .unfavorable) :
    makeDecisionFrom mainTree handStrength potSize potOdds playersCalled isSuited =
      some (mainTree, { potOdds := potOdds, action := "fold", amount := none }) := by
  simp [makeDecisionFrom, hb, mainTree, DecisionNode.child, DecisionNode.setChild,
    DecisionNode.new, DecisionNode.unfavorableOdds, DecisionNode.action]

/-- On the tree of `main` the favorable branch prints a raise and stores the
computed amount in the raise node. -/
theorem makeDecision_mainTree_favorable (handStrength : ℤ) (potSize toCall : ℚ)
    (playersCalled : ℤ) (isSuited : Bool)
    (hb : selectBranch handStrength (calculatePotOdds potSize toCall) isSuited = .favorable) :
    makeDecision mainTree handStrength potSize toCall playersCalled isSuited =
      some (mainTree.setChild .favorable ((DecisionNode.new "raise" 0).setRaiseAmount
          (calculateRaiseAmount potSize handStrength playersCalled
            (calculatePotOdds potSize toCall))),
        { potOdds := calculatePotOdds potSize toCall, action := "raise",
          amount := some (calculateRaiseAmount potSize handStrength playersCalled
            (calculatePotOdds potSize toCall)) }) :=
  makeDecisionFrom_mainTree_favorable handStrength potSize _ playersCalled isSuited hb

/-- On the tree of `main` the moderate branch prints a call and leaves the tree
as it is. -/
theorem makeDecision_mainTree_moderate (handStrength : ℤ) (potSize toCall : ℚ)
    (playersCalled : ℤ) (isSuited : Bool)
    (hb : selectBranch handStrength (calculatePotOdds potSize toCall) isSuited = .moderate) :
    makeDecision mainTree handStrength potSize toCall playersCalled isSuited =
      some (mainTree,
        { potOdds := calculatePotOdds potSize toCall, action := "call", amount := none }) :=
  makeDecisionFrom_mainTree_moderate handStrength potSize _ playersCalled isSuited hb

/-- On the tree of `main` the unfavorable branch prints a fold and leaves the
tree as it is. -/
theorem makeDecision_mainTree_unfavorable (handStrength : ℤ) (potSize toCall : ℚ)
    (playersCalled : ℤ) (isSuited : Bool)
    (hb : selectBranch handStrength (calculatePotOdds potSize toCall) isSuited = .unfavorable) :
    makeDecision mainTree handStrength potSize toCall playersCalled isSuited =
      some (mainTree,
        { potOdds := calculatePotOdds potSize toCall, action := "fold", amount := none }) :=
  makeDecisionFrom_mainTree_unfavorable handStrength potSize _ playersCalled isSuited hb

/-- The branch the code selects carries the action the rule list of the
specification chooses. -/
theorem specAction_eq_branch (handStrength : ℤ) (potOdds : ℚ) (isSuited : Bool) :
    specAction handStrength potOdds isSuited =
      match selectBranch handStrength (.fin potOdds) isSuited with
      | .favorable => "raise"
      | .moderate => "call"
      | .unfavorable => "fold" := by
  simp only [specAction, decisionRules, firstMatch, selectBranch, DoubleVal.gt,
    decide_eq_true_eq]
  split_ifs <;> rfl

/-- C2: with the tree `main` builds and `toCall ≠ 0`, `makeDecision` reports
the action of the ordered rule list evaluated at
`potOdds = potSize / toCall * 100`, and for a raise the reported amount is
`calculateRaiseAmount` at that same unrounded `potOdds`. -/
theorem makeDecision_mainTree_eq_spec (handStrength : ℤ) (potSize toCall : ℚ)
    (playersCalled : ℤ) (isSuited : Bool) (ht : toCall ≠ 0) :
    (makeDecision mainTree handStrength potSize toCall playersCalled isSuited).map Prod.snd =
      some { potOdds := .fin (potSize / toCall * 100),
             action := specAction handStrength (potSize / toCall * 100) isSuited,
             amount :=
              if specAction handStrength (potSize / toCall * 100) isSuited = "raise" then
                some (calculateRaiseAmount potSize handStrength playersCalled
                  (.fin (potSize / toCall * 100)))
              else none } := by
  have hpo := calculatePotOdds_of_ne_zero potSize ht
  have hs := specAction_eq_branch handStrength (potSize / toCall * 100) isSuited
  rw [← hpo] at hs ⊢
  cases hb : selectBranch handStrength (calculatePotOdds potSize toCall) isSuited
  · rw [makeDecision_mainTree_favorable _ _ _ _ _ hb, hs, hb]
    rfl
  · rw [makeDecision_mainTree_moderate _ _ _ _ _ hb, hs, hb]
    rfl
  · rw [makeDecision_mainTree_unfavorable _ _ _ _ _ hb, hs, hb]
    rfl

/-- Witness for C2: strength 9, pot 7, 4 to call, two callers: pot odds 175,
rule 2 raises. -/
theorem makeDecision_mainTree_eq_spec_witness :
    (makeDecision mainTree 9 7 4 2 false).map Prod.snd =
      some { potOdds := .fin (7 / 4 * 100),
             action := specAction 9 (7 / 4 * 100) false,
             amount :=
              if specAction 9 (7 / 4 * 100) false = "raise" then
                some (calculateRaiseAmount 7 9 2 (.fin (7 / 4 * 100)))
              else none } :=
  makeDecision_mainTree_eq_spec 9 7 4 2 false (by norm_num)

/-- C8: pot odds of at most 50 (exactly 50 included) are not favourable: with
the tree of `main`, every `handStrength < 12` and `toCall ≠ 0`,
`makeDecision` reports a fold whatever `isSuited` and `playersCalled` are; in
particular ranks (2, 4) have strength 3 and fold when the pot odds are below
50. -/
theorem makeDecision_fold_of_odds_le_fifty :
    (∀ (handStrength : ℤ) (potSize toCall : ℚ) (playersCalled : ℤ) (isSuited : Bool),
      toCall ≠ 0 → handStrength < 12 → potSize / toCall * 100 ≤ 50 →
      (makeDecision mainTree handStrength potSize toCall playersCalled isSuited).map Prod.snd =
        some { potOdds := .fin (potSize / toCall * 100), action := "fold", amount := none }) ∧
    (∀ (suit1 suit2 : String) (smallBlind bigBlind : ℚ) (playersCalled : ℤ) (toCall : ℚ),
      toCall ≠ 0 → estimatePotSize smallBlind bigBlind playersCalled / toCall * 100 < 50 →
      evaluateHandStrength 2 4 suit1 suit2 = 3 ∧
      (mainPipeline mainTree 2 4 suit1 suit2 smallBlind bigBlind playersCalled toCall).map
          Prod.snd =
        some { potOdds := .fin (estimatePotSize smallBlind bigBlind playersCalled / toCall * 100),
               action := "fold", amount := none }) := by
  have main : ∀ (handStrength : ℤ) (potSize toCall : ℚ) (playersCalled : ℤ) (isSuited : Bool),
      toCall ≠ 0 → handStrength < 12 → potSize / toCall * 100 ≤ 50 →
      (makeDecision mainTree handStrength potSize toCall playersCalled isSuited).map Prod.snd =
        some { potOdds := .fin (potSize / toCall * 100), action := "fold", amount := none } := by
    intro handStrength potSize toCall playersCalled isSuited ht hh ho
    have hpo := calculatePotOdds_of_ne_zero potSize ht
    have hb : selectBranch handStrength (calculatePotOdds potSize toCall) isSuited =
        .unfavorable := by
      rw [hpo]
      simp [selectBranch, DoubleVal.gt, not_le.mpr hh, not_lt.mpr ho]
    rw [makeDecision_mainTree_unfavorable _ _ _ _ _ hb, hpo]
    rfl
  refine ⟨main, ?_⟩
  intro suit1 suit2 smallBlind bigBlind playersCalled toCall ht ho
  have h3 : evaluateHandStrength 2 4 suit1 suit2 = 3 := by
    simp [evaluateHandStrength]
  refine ⟨h3, ?_⟩
  unfold mainPipeline
  simp only [h3]
  exact main 3 _ toCall playersCalled _ ht (by decide) ho.le

/-- Witness for C8: pot odds of exactly 50 (pot 50, 100 to call) with a
suited strength-9 hand fold, and (2, 4) offsuit folds at pot odds 40. -/
theorem makeDecision_fold_of_odds_le_fifty_witness :
    (makeDecision mainTree 9 50 100 0 true).map Prod.snd =
        some { potOdds := .fin (50 / 100 * 100), action := "fold", amount := none } ∧
      (evaluateHandStrength 2 4 "H" "S" = 3 ∧
        (mainPipeline mainTree 2 4 "H" "S" 1 2 2 (35 / 2)).map Prod.snd =
          some { potOdds := .fin (estimatePotSize 1 2 2 / (35 / 2) * 100),
                 action := "fold", amount := none }) :=
  ⟨makeDecision_fold_of_odds_le_fifty.1 9 50 100 0 true (by norm_num) (by decide)
      (by norm_num),
    makeDecision_fold_of_odds_le_fifty.2 "H" "S" 1 2 2 (35 / 2) (by norm_num)
      (by norm_num [estimatePotSize])⟩

/-- C9: with the tree of `main`, pot odds strictly above 50 and a moderate
strength (`5 < h < 9`, and not both `h ≥ 7` and suited) make `makeDecision`
report a call, with no amount. -/
theorem makeDecision_call_of_moderate (handStrength : ℤ) (potSize toCall : ℚ)
    (playersCalled : ℤ) (isSuited : Bool) (ht : toCall ≠ 0)
    (ho : potSize / toCall * 100 > 50) (h5 : 5 < handStrength) (h9 : handStrength < 9)
    (hs : ¬ (handStrength ≥ 7 ∧ isSuited = true)) :
    (makeDecision mainTree handStrength potSize toCall playersCalled isSuited).map Prod.snd =
      some { potOdds := .fin (potSize / toCall * 100), action := "call", amount := none } := by
  have hpo := calculatePotOdds_of_ne_zero potSize ht
  have hb : selectBranch handStrength (calculatePotOdds potSize toCall) isSuited =
      .moderate := by
    rw [hpo]
    have h12 : ¬ handStrength ≥ 12 := by omega
    have h9' : ¬ handStrength ≥ 9 := by omega
    have hs' : ¬ (handStrength ≥ 7 ∧ True ∧ isSuited = true) :=
      fun h => hs ⟨h.1, h.2.2⟩
    have h5' : handStrength > 5 := h5
    simp only [selectBranch, DoubleVal.gt, decide_eq_true_eq, h12, h9', h5', ho,
      false_and, and_self, if_true, if_false, if_neg hs']
  rw [makeDecision_mainTree_moderate _ _ _ _ _ hb, hpo]
  rfl

/-- Witness for C9: pot odds 50.0001 (pot 500001, 1000000 to call) with an
unsuited strength-6 hand call. -/
theorem makeDecision_call_of_moderate_witness :
    (makeDecision mainTree 6 500001 1000000 3 false).map Prod.snd =
      some { potOdds := .fin (500001 / 1000000 * 100), action := "call", amount := none } :=
  makeDecision_call_of_moderate 6 500001 1000000 3 false (by norm_num) (by norm_num)
    (by decide) (by decide) (by decide)

/-- C10: scenario A as `main` wires it: Ace-King, small blind 1, big blind 2,
two callers and 4 to call give pot size 7, pot odds 175, strength 9 and a
raise of exactly 17 (for any suits, different ones in particular). -/
theorem scenarioA (suit1 suit2 : String) :
    estimatePotSize 1 2 2 = 7 ∧
      calculatePotOdds (estimatePotSize 1 2 2) 4 = .fin 175 ∧
      evaluateHandStrength 14 13 suit1 suit2 = 9 ∧
      (mainPipeline mainTree 14 13 suit1 suit2 1 2 2 4).map Prod.snd =
        some { potOdds := .fin 175, action := "raise", amount := some 17 } := by
  have hp : estimatePotSize 1 2 2 = 7 := by norm_num [estimatePotSize]
  have hpo : calculatePotOdds 7 4 = .fin 175 := by
    rw [calculatePotOdds_of_ne_zero 7 (by norm_num)]
    norm_num
  have h9 : evaluateHandStrength 14 13 suit1 suit2 = 9 := by
    simp [evaluateHandStrength]
  refine ⟨hp, by rw [hp, hpo], h9, ?_⟩
  unfold mainPipeline
  simp only [hp, h9]
  have hb : selectBranch 9 (calculatePotOdds 7 4) (decide (suit1 = suit2)) = .favorable := by
    rw [hpo]
    norm_num [selectBranch, DoubleVal.gt]
  rw [makeDecision_mainTree_favorable _ _ _ _ _ hb, hpo]
  norm_num [calculateRaiseAmount, unroundedRaiseAmount, DoubleVal.gt, stdRound]

/-- C11: scenario B as `main` wires it: a pair of Aces, and likewise a pair of
Kings, is a raise for any suits, blinds, callers and amount to call (zero
included), whatever the pot odds are. -/
theorem pocketAcesKings_raise (suit1 suit2 : String) (smallBlind bigBlind : ℚ)
    (playersCalled : ℤ) (toCall : ℚ) :
    evaluateHandStrength 14 14 suit1 suit2 = 12 ∧
      evaluateHandStrength 13 13 suit1 suit2 = 12 ∧
      (mainPipeline mainTree 14 14 suit1 suit2 smallBlind bigBlind playersCalled toCall).map
          (fun r => r.2.action) = some "raise" ∧
      (mainPipeline mainTree 13 13 suit1 suit2 smallBlind bigBlind playersCalled toCall).map
          (fun r => r.2.action) = some "raise" := by
  have hA : evaluateHandStrength 14 14 suit1 suit2 = 12 := by simp [evaluateHandStrength]
  have hK : evaluateHandStrength 13 13 suit1 suit2 = 12 := by simp [evaluateHandStrength]
  have hb : ∀ (d : DoubleVal) (b : Bool), selectBranch 12 d b = .favorable := by
    intro d b
    simp [selectBranch]
  refine ⟨hA, hK, ?_, ?_⟩
  · unfold mainPipeline
    simp only [hA]
    rw [makeDecision_mainTree_favorable _ _ _ _ _ (hb _ _)]
    rfl
  · unfold mainPipeline
    simp only [hK]
    rw [makeDecision_mainTree_favorable _ _ _ _ _ (hb _ _)]
    rfl

/-! ## Pot odds -/

/-- C12: for `toCall ≠ 0` the pot odds are `(potSize / toCall) * 100`; in
particular `calculatePotOdds 100 50 = 200` and `calculatePotOdds 50 100 = 50`. -/
theorem calculatePotOdds_eq (potSize toCall : ℚ) :
    (toCall ≠ 0 → calculatePotOdds potSize toCall = .fin (potSize / toCall * 100)) ∧
      calculatePotOdds 100 50 = .fin 200 ∧ calculatePotOdds 50 100 = .fin 50 := by
  refine ⟨fun h => calculatePotOdds_of_ne_zero potSize h, ?_, ?_⟩
  · rw [calculatePotOdds_of_ne_zero 100 (by norm_num)]
    norm_num
  · rw [calculatePotOdds_of_ne_zero 50 (by norm_num)]
    norm_num

/-- Witness for C12: pot 7 and 4 to call. -/
theorem calculatePotOdds_eq_witness : calculatePotOdds 7 4 = .fin (7 / 4 * 100) :=
  (calculatePotOdds_eq 7 4).1 (by norm_num)

/-- With `toCall = 0` the pot odds are `+inf`, `-inf` or `NaN`, after the sign
of the pot size. -/
theorem calculatePotOdds_zero (potSize : ℚ) :
    calculatePotOdds potSize 0 =
      if potSize > 0 then .posInf else if potSize < 0 then .negInf else .nan := by
  unfold calculatePotOdds DoubleVal.ofDiv
  rw [if_pos rfl]
  split_ifs <;> rfl

/-- Counterexample for C13: with `toCall = 0` (the positive zero) nothing is
checked: the pot odds are `+inf` and `makeDecision` reports the action call,
chosen because `+inf > 50`. -/
theorem toCall_zero_reports_call :
    calculatePotOdds 7 0 = .posInf ∧
      makeDecision mainTree 6 7 0 2 false =
        some (mainTree, { potOdds := .posInf, action := "call", amount := none }) := by
  have hpo : calculatePotOdds 7 0 = .posInf := by
    rw [calculatePotOdds_zero]
    norm_num
  have hb : selectBranch 6 (calculatePotOdds 7 0) false = .moderate := by
    rw [hpo]
    simp [selectBranch, DoubleVal.gt]
  refine ⟨hpo, ?_⟩
  rw [makeDecision_mainTree_moderate _ _ _ _ _ hb, hpo]

/-- With `toCall = -0.0` the pot odds are `-inf`, `+inf` or `NaN`, opposite to
the sign of the pot size. -/
theorem calculatePotOddsNegZero_eq (potSize : ℚ) :
    calculatePotOddsNegZero potSize =
      if potSize > 0 then .negInf else if potSize < 0 then .posInf else .nan := by
  unfold calculatePotOddsNegZero DoubleVal.ofDivNegZero
  split_ifs <;> rfl

/-- On the tree of `main` the body of `makeDecision` returns for every value of
the pot odds, finite or not: a report that carries this value and one of the
three actions. -/
theorem makeDecisionFrom_mainTree_reports (handStrength : ℤ) (potSize : ℚ)
    (potOdds : DoubleVal) (playersCalled : ℤ) (isSuited : Bool) :
    ∃ (root1 : DecisionNode) (rep : Report),
      makeDecisionFrom mainTree handStrength potSize potOdds playersCalled isSuited =
        some (root1, rep) ∧
      rep.potOdds = potOdds ∧
      (rep.action = "raise" ∨ rep.action = "call" ∨ rep.action = "fold") := by
  cases hb : selectBranch handStrength potOdds isSuited
  · exact ⟨_, _, makeDecisionFrom_mainTree_favorable _ _ _ _ _ hb, rfl, Or.inl rfl⟩
  · exact ⟨_, _, makeDecisionFrom_mainTree_moderate _ _ _ _ _ hb, rfl, Or.inr (Or.inl rfl)⟩
  · exact ⟨_, _, makeDecisionFrom_mainTree_unfavorable _ _ _ _ _ hb, rfl, Or.inr (Or.inr rfl)⟩

/-- The two zeros give different outcomes: with `toCall = -0.0`, pot 7 and
strength 6 the pot odds are `-inf` and the report is a fold, where `+0.0` gives
`+inf` and a call. -/
theorem makeDecisionNegZero_fold :
    calculatePotOddsNegZero 7 = .negInf ∧
      makeDecisionNegZero mainTree 6 7 2 false =
        some (mainTree, { potOdds := .negInf, action := "fold", amount := none }) := by
  have hpo : calculatePotOddsNegZero 7 = .negInf := by
    rw [calculatePotOddsNegZero_eq]
    norm_num
  have hb : selectBranch 6 (calculatePotOddsNegZero 7) false = .unfavorable := by
    rw [hpo]
    simp [selectBranch, DoubleVal.gt]
  refine ⟨hpo, ?_⟩
  unfold makeDecisionNegZero
  rw [makeDecisionFrom_mainTree_unfavorable _ _ _ _ _ hb, hpo]

/-- C13 (amended): with `toCall = 0`, the positive zero or the negative one, no
check is made and no error is reported: the pot odds are an infinite or `NaN`
value, never a finite one, and `makeDecision` on the tree of `main` still
returns a report, which carries that value and one of the actions raise, call
and fold. -/
theorem makeDecision_toCall_zero (handStrength : ℤ) (potSize : ℚ) (playersCalled : ℤ)
    (isSuited : Bool) :
    ((∀ q : ℚ, calculatePotOdds potSize 0 ≠ .fin q) ∧
      ∃ (root1 : DecisionNode) (rep : Report),
        makeDecision mainTree handStrength potSize 0 playersCalled isSuited =
          some (root1, rep) ∧
        rep.potOdds = calculatePotOdds potSize 0 ∧
        (rep.action = "raise" ∨ rep.action = "call" ∨ rep.action = "fold")) ∧
    ((∀ q : ℚ, calculatePotOddsNegZero potSize ≠ .fin q) ∧
      ∃ (root1 : DecisionNode) (rep : Report),
        makeDecisionNegZero mainTree handStrength potSize playersCalled isSuited =
          some (root1, rep) ∧
        rep.potOdds = calculatePotOddsNegZero potSize ∧
        (rep.action = "raise" ∨ rep.action = "call" ∨ rep.action = "fold")) := by
  refine ⟨⟨?_, ?_⟩, ⟨?_, ?_⟩⟩
  · intro q
    rw [calculatePotOdds_zero]
    split_ifs <;> exact fun h => DoubleVal.noConfusion h
  · exact makeDecisionFrom_mainTree_reports handStrength potSize _ playersCalled isSuited
  · intro q
    rw [calculatePotOddsNegZero_eq]
    split_ifs <;> exact fun h => DoubleVal.noConfusion h
  · exact makeDecisionFrom_mainTree_reports handStrength potSize _ playersCalled isSuited

/-! ## Hand strength tiers -/

/-- The value of `evaluateHandStrength` is one of the eight tiers. -/
theorem evaluateHandStrength_cases (r1 r2 : ℤ) (s1 s2 : String) :
    evaluateHandStrength r1 r2 s1 s2 = 12 ∨ evaluateHandStrength r1 r2 s1 s2 = 10 ∨
      evaluateHandStrength r1 r2 s1 s2 = 9 ∨ evaluateHandStrength r1 r2 s1 s2 = 8 ∨
      evaluateHandStrength r1 r2 s1 s2 = 7 ∨ evaluateHandStrength r1 r2 s1 s2 = 6 ∨
      evaluateHandStrength r1 r2 s1 s2 = 5 ∨ evaluateHandStrength r1 r2 s1 s2 = 3 := by
  unfold evaluateHandStrength
  split_ifs <;> simp

/-- Tiers 7 and 8 are only given to suited hands. -/
theorem suited_of_evaluateHandStrength (r1 r2 : ℤ) (s1 s2 : String)
    (h : evaluateHandStrength r1 r2 s1 s2 = 7 ∨ evaluateHandStrength r1 r2 s1 s2 = 8) :
    s1 = s2 := by
  unfold evaluateHandStrength at h
  split_ifs at h with h1 h2 h3 h4 h5 h6 h7
  all_goals first
    | exact h4.1
    | exact h5.1
    | (rcases h with h | h <;> exact absurd h (by decide))

/-- A suited connector scores at least 7. -/
theorem suitedConnector_ge_seven (r1 r2 : ℤ) (s : String) (hc : |r1 - r2| = 1) :
    7 ≤ evaluateHandStrength r1 r2 s s := by
  unfold evaluateHandStrength
  split_ifs with h1 h2 h3 h4 h5
  all_goals first
    | decide
    | exact absurd ⟨rfl, hc⟩ h5

/-- C15: the value of `evaluateHandStrength` is a member of
`{12, 10, 9, 8, 7, 6, 5, 3}`, 12 is the highest, and 12 is returned exactly for
a pair of rank at least 13. -/
theorem evaluateHandStrength_mem_tiers (r1 r2 : ℤ) (s1 s2 : String) :
    evaluateHandStrength r1 r2 s1 s2 ∈ ({12, 10, 9, 8, 7, 6, 5, 3} : Finset ℤ) ∧
      evaluateHandStrength r1 r2 s1 s2 ≤ 12 ∧
      (evaluateHandStrength r1 r2 s1 s2 = 12 ↔ r1 = r2 ∧ r1 ≥ 13) := by
  refine ⟨?_, ?_, ?_⟩
  · have h := evaluateHandStrength_cases r1 r2 s1 s2
    simp only [Finset.mem_insert, Finset.mem_singleton]
    exact h
  · have h := evaluateHandStrength_cases r1 r2 s1 s2
    omega
  · unfold evaluateHandStrength
    split_ifs with h1
    · exact ⟨fun _ => h1, fun _ => rfl⟩
    all_goals simp [h1]

/-- C16: the failing input: ranks 9 and 5 of one suit are scored 6 by the
sixth rule, which does not test the suits. -/
theorem evaluateHandStrength_suited_six : evaluateHandStrength 9 5 "H" "H" = 6 := by
  decide

/-- Counterexample for C17: there is no suited connector that is scored
strictly lower than an unsuited hand of larger rank sum whose strength comes
from the sixth rule. -/
theorem not_exists_rule6_above_suited_connector :
    ¬ ∃ (r1 r2 r3 r4 : ℤ) (s s3 s4 : String),
      (1 ≤ r1 ∧ r1 ≤ 14) ∧ (1 ≤ r2 ∧ r2 ≤ 14) ∧ (1 ≤ r3 ∧ r3 ≤ 14) ∧ (1 ≤ r4 ∧ r4 ≤ 14) ∧
      |r1 - r2| = 1 ∧ s3 ≠ s4 ∧ r3 + r4 > r1 + r2 ∧
      evaluateHandStrength r3 r4 s3 s4 = 6 ∧
      evaluateHandStrength r1 r2 s s < evaluateHandStrength r3 r4 s3 s4 := by
  rintro ⟨r1, r2, r3, r4, s, s3, s4, -, -, -, -, hc, -, -, h6, hlt⟩
  have h7 := suitedConnector_ge_seven r1 r2 s hc
  omega

/-- C17 (amended): the sixth rule never outranks the fifth: a suited connector
scores at least 7, hence strictly more than any hand whose strength comes from
the sixth rule. -/
theorem suitedConnector_above_rule6 (r1 r2 r3 r4 : ℤ) (s s3 s4 : String)
    (hc : |r1 - r2| = 1) (h6 : evaluateHandStrength r3 r4 s3 s4 = 6) :
    7 ≤ evaluateHandStrength r1 r2 s s ∧
      evaluateHandStrength r3 r4 s3 s4 < evaluateHandStrength r1 r2 s s := by
  have h7 := suitedConnector_ge_seven r1 r2 s hc
  exact ⟨h7, by omega⟩

/-- Witness for C17 (amended): the suited connector (3, 2) scores more than
the offsuit (10, 3), whose rank sum is larger and whose strength is 6. -/
theorem suitedConnector_above_rule6_witness :
    7 ≤ evaluateHandStrength 3 2 "H" "H" ∧
      evaluateHandStrength 10 3 "H" "S" < evaluateHandStrength 3 2 "H" "H" :=
  suitedConnector_above_rule6 3 2 10 3 "H" "H" "S" (by decide) (by decide)

/-! ## The pipeline of `main` -/

/-- With `toCall ≠ 0` the action `makeDecision` reports on the tree of `main`
is the action of the rule list. -/
theorem makeDecision_mainTree_action (handStrength : ℤ) (potSize toCall : ℚ)
    (playersCalled : ℤ) (isSuited : Bool) (ht : toCall ≠ 0) :
    (makeDecision mainTree handStrength potSize toCall playersCalled isSuited).map
        (fun r => r.2.action) =
      some (specAction handStrength (potSize / toCall * 100) isSuited) := by
  have hpo := calculatePotOdds_of_ne_zero potSize ht
  have hs := specAction_eq_branch handStrength (potSize / toCall * 100) isSuited
  rw [← hpo] at hs
  cases hb : selectBranch handStrength (calculatePotOdds potSize toCall) isSuited
  · rw [makeDecision_mainTree_favorable _ _ _ _ _ hb, hs, hb]
    rfl
  · rw [makeDecision_mainTree_moderate _ _ _ _ _ hb, hs, hb]
    rfl
  · rw [makeDecision_mainTree_unfavorable _ _ _ _ _ hb, hs, hb]
    rfl

/-- C18: in the pipeline of `main` with `toCall ≠ 0` the action is a call
exactly when the hand strength is 6 and the pot odds exceed 50, and a raise
exactly when the strength is at least 12, or at least 7 with pot odds above 50;
strengths 7 and 8 only arise for suited hands, so the `isSuited` test of the
third decision rule never changes the outcome. -/
theorem mainPipeline_action_iff (rank1 rank2 : ℤ) (suit1 suit2 : String)
    (smallBlind bigBlind : ℚ) (playersCalled : ℤ) (toCall : ℚ) (ht : toCall ≠ 0) :
    ∃ action : String,
      (mainPipeline mainTree rank1 rank2 suit1 suit2 smallBlind bigBlind playersCalled
          toCall).map (fun r => r.2.action) = some action ∧
      (action = "call" ↔
        evaluateHandStrength rank1 rank2 suit1 suit2 = 6 ∧
          estimatePotSize smallBlind bigBlind playersCalled / toCall * 100 > 50) ∧
      (action = "raise" ↔
        evaluateHandStrength rank1 rank2 suit1 suit2 ≥ 12 ∨
          (evaluateHandStrength rank1 rank2 suit1 suit2 ≥ 7 ∧
            estimatePotSize smallBlind bigBlind playersCalled / toCall * 100 > 50)) ∧
      (evaluateHandStrength rank1 rank2 suit1 suit2 = 7 ∨
          evaluateHandStrength rank1 rank2 suit1 suit2 = 8 → suit1 = suit2) := by
  refine ⟨_, makeDecision_mainTree_action _ _ _ _ _ ht, ?_, ?_,
    suited_of_evaluateHandStrength rank1 rank2 suit1 suit2⟩
  · have hv := evaluateHandStrength_cases rank1 rank2 suit1 suit2
    have hsu := suited_of_evaluateHandStrength rank1 rank2 suit1 suit2
    generalize evaluateHandStrength rank1 rank2 suit1 suit2 = h at hv hsu
    generalize estimatePotSize smallBlind bigBlind playersCalled / toCall * 100 = po
    by_cases hp : po > 50 <;> by_cases hs : suit1 = suit2 <;>
      rcases hv with h' | h' | h' | h' | h' | h' | h' | h' <;>
      first
        | (subst h'; simp [specAction, decisionRules, firstMatch, hp, hs]; done)
        | exact absurd (hsu (Or.inl h')) hs
        | exact absurd (hsu (Or.inr h')) hs
  · have hv := evaluateHandStrength_cases rank1 rank2 suit1 suit2
    have hsu := suited_of_evaluateHandStrength rank1 rank2 suit1 suit2
    generalize evaluateHandStrength rank1 rank2 suit1 suit2 = h at hv hsu
    generalize estimatePotSize smallBlind bigBlind playersCalled / toCall * 100 = po
    by_cases hp : po > 50 <;> by_cases hs : suit1 = suit2 <;>
      rcases hv with h' | h' | h' | h' | h' | h' | h' | h' <;>
      first
        | (subst h'; simp [specAction, decisionRules, firstMatch, hp, hs]; done)
        | exact absurd (hsu (Or.inl h')) hs
        | exact absurd (hsu (Or.inr h')) hs

/-- Witness for C18: Ace-King offsuit with blinds 1 and 2, two callers and 4
to call. -/
theorem mainPipeline_action_iff_witness :
    ∃ action : String,
      (mainPipeline mainTree 14 13 "H" "S" 1 2 2 4).map (fun r => r.2.action) = some action ∧
      (action = "call" ↔
        evaluateHandStrength 14 13 "H" "S" = 6 ∧ estimatePotSize 1 2 2 / 4 * 100 > 50) ∧
      (action = "raise" ↔
        evaluateHandStrength 14 13 "H" "S" ≥ 12 ∨
          (evaluateHandStrength 14 13 "H" "S" ≥ 7 ∧ estimatePotSize 1 2 2 / 4 * 100 > 50)) ∧
      (evaluateHandStrength 14 13 "H" "S" = 7 ∨ evaluateHandStrength 14 13 "H" "S" = 8 →
        "H" = "S") :=
  mainPipeline_action_iff 14 13 "H" "S" 1 2 2 4 (by norm_num)

/-! ## The tree as state -/

/-- On the tree of `main` every call of `makeDecision` returns, with one of
three outcomes. -/
theorem makeDecision_mainTree_outcome (handStrength : ℤ) (potSize toCall : ℚ)
    (playersCalled : ℤ) (isSuited : Bool) :
    makeDecision mainTree handStrength potSize toCall playersCalled isSuited =
        some (mainTree.setChild .favorable ((DecisionNode.new "raise" 0).setRaiseAmount
            (calculateRaiseAmount potSize handStrength playersCalled
              (calculatePotOdds potSize toCall))),
          { potOdds := calculatePotOdds potSize toCall, action := "raise",
            amount := some (calculateRaiseAmount potSize handStrength playersCalled
              (calculatePotOdds potSize toCall)) }) ∨
      makeDecision mainTree handStrength potSize toCall playersCalled isSuited =
        some (mainTree,
          { potOdds := calculatePotOdds potSize toCall, action := "call", amount := none }) ∨
      makeDecision mainTree handStrength potSize toCall playersCalled isSuited =
        some (mainTree,
          { potOdds := calculatePotOdds potSize toCall, action := "fold", amount := none }) := by
  cases hb : selectBranch handStrength (calculatePotOdds potSize toCall) isSuited
  · exact Or.inl (makeDecision_mainTree_favorable _ _ _ _ _ hb)
  · exact Or.inr (Or.inl (makeDecision_mainTree_moderate _ _ _ _ _ hb))
  · exact Or.inr (Or.inr (makeDecision_mainTree_unfavorable _ _ _ _ _ hb))

/-- C19: frame of `makeDecision` on the tree `main` builds: a call or a fold
leaves the whole tree as it is; a raise changes only the `raiseAmount` of the
favorable node, which becomes the computed amount; the root, every action and
the `raiseAmount` 0 of the call and fold nodes are never modified. -/
theorem makeDecision_mainTree_frame (handStrength : ℤ) (potSize toCall : ℚ)
    (playersCalled : ℤ) (isSuited : Bool) :
    mainTree = .mk "start" 0 (some (.mk "raise" 0 none none none))
        (some (.mk "call" 0 none none none)) (some (.mk "fold" 0 none none none)) ∧
    ∃ (root1 : DecisionNode) (rep : Report),
      makeDecision mainTree handStrength potSize toCall playersCalled isSuited =
        some (root1, rep) ∧
      (rep.action = "raise" ∨ rep.action = "call" ∨ rep.action = "fold") ∧
      (rep.action = "call" ∨ rep.action = "fold" → root1 = mainTree) ∧
      (rep.action = "raise" →
        root1 = .mk "start" 0
          (some (.mk "raise" (calculateRaiseAmount potSize handStrength playersCalled
            (calculatePotOdds potSize toCall)) none none none))
          (some (.mk "call" 0 none none none)) (some (.mk "fold" 0 none none none))) ∧
      root1.action = "start" ∧ root1.raiseAmount = 0 ∧
      root1.favorableOdds.map DecisionNode.action = some "raise" ∧
      root1.moderateOdds = some (.mk "call" 0 none none none) ∧
      root1.unfavorableOdds = some (.mk "fold" 0 none none none) := by
  refine ⟨rfl, ?_⟩
  rcases makeDecision_mainTree_outcome handStrength potSize toCall playersCalled isSuited
    with h | h | h
  · refine ⟨_, _, h, Or.inl rfl, ?_, fun _ => rfl, rfl, rfl, rfl, rfl, rfl⟩
    rintro (h' | h')
    · exact absurd (show ("raise" : String) = "call" from h') (by decide)
    · exact absurd (show ("raise" : String) = "fold" from h') (by decide)
  · refine ⟨_, _, h, Or.inr (Or.inl rfl), fun _ => rfl, ?_, rfl, rfl, rfl, rfl, rfl⟩
    intro h'
    exact absurd (show ("call" : String) = "raise" from h') (by decide)
  · refine ⟨_, _, h, Or.inr (Or.inr rfl), fun _ => rfl, ?_, rfl, rfl, rfl, rfl, rfl⟩
    intro h'
    exact absurd (show ("fold" : String) = "raise" from h') (by decide)

/-- Witness for C19: the raise of scenario A stores 17 in the favorable node
and changes nothing else. -/
theorem makeDecision_mainTree_frame_witness :
    (makeDecision mainTree 9 7 4 2 false).map Prod.fst =
      some (.mk "start" 0 (some (.mk "raise" 17 none none none))
        (some (.mk "call" 0 none none none)) (some (.mk "fold" 0 none none none))) := by
  obtain ⟨-, root1, rep, h, -, -, hr, -⟩ := makeDecision_mainTree_frame 9 7 4 2 false
  have hpo : calculatePotOdds 7 4 = .fin 175 := by
    rw [calculatePotOdds_of_ne_zero 7 (by norm_num)]
    norm_num
  have hb : selectBranch 9 (calculatePotOdds 7 4) false = .favorable := by
    rw [hpo]
    norm_num [selectBranch, DoubleVal.gt]
  have h17 : calculateRaiseAmount 7 9 2 (.fin 175) = 17 := by
    norm_num [calculateRaiseAmount, unroundedRaiseAmount, DoubleVal.gt, stdRound]
  have h2 := (makeDecision_mainTree_favorable 9 7 4 2 false hb).symm.trans h
  have hrep : rep.action = "raise" := by
    injection h2 with h2
    injection h2 with _ h3
    rw [← h3]
  rw [h, Option.map_some', hr hrep, hpo, h17]

/-! ## Independence of the stored raise amounts -/

/-- Resetting the raise amounts keeps the action of a node. -/
theorem action_eraseRaiseAmounts (n : DecisionNode) :
    n.eraseRaiseAmounts.action = n.action := by
  cases n
  rfl

/-- Resetting the raise amounts commutes with reading a child pointer. -/
theorem child_eraseRaiseAmounts (n : DecisionNode) (b : Branch) :
    n.eraseRaiseAmounts.child b = eraseRaiseAmountsOpt (n.child b) := by
  cases n
  cases b <;> rfl

/-- Writing a raise amount is invisible once the raise amounts are reset. -/
theorem eraseRaiseAmounts_setRaiseAmount (n : DecisionNode) (r : ℚ) :
    (n.setRaiseAmount r).eraseRaiseAmounts = n.eraseRaiseAmounts := by
  cases n
  rfl

/-- Replacing a child by a node that differs from it only in raise amounts is
invisible once the raise amounts are reset. -/
theorem eraseRaiseAmounts_setChild (n : DecisionNode) (b : Branch) (c c1 : DecisionNode)
    (hc : n.child b = some c) (h : c1.eraseRaiseAmounts = c.eraseRaiseAmounts) :
    (n.setChild b c1).eraseRaiseAmounts = n.eraseRaiseAmounts := by
  cases n with
  | mk a r f m u =>
    cases b
    · have hf : f = some c := hc
      subst hf
      simp only [DecisionNode.setChild, DecisionNode.eraseRaiseAmounts, eraseRaiseAmountsOpt, h]
    · have hm : m = some c := hc
      subst hm
      simp only [DecisionNode.setChild, DecisionNode.eraseRaiseAmounts, eraseRaiseAmountsOpt, h]
    · have hu : u = some c := hc
      subst hu
      simp only [DecisionNode.setChild, DecisionNode.eraseRaiseAmounts, eraseRaiseAmountsOpt, h]

/-- A call of `makeDecision` changes stored raise amounts only. -/
theorem makeDecision_eraseRaiseAmounts (root root1 : DecisionNode) (rep : Report)
    (handStrength : ℤ) (potSize toCall : ℚ) (playersCalled : ℤ) (isSuited : Bool)
    (h : makeDecision root handStrength potSize toCall playersCalled isSuited =
      some (root1, rep)) :
    root1.eraseRaiseAmounts = root.eraseRaiseAmounts := by
  unfold makeDecision makeDecisionFrom at h
  simp only at h
  cases hc : root.child (selectBranch handStrength (calculatePotOdds potSize toCall) isSuited)
    with
  | none =>
    rw [hc] at h
    cases h
  | some current =>
    rw [hc] at h
    simp only at h
    split_ifs at h with ha
    · injection h with h
      injection h with h1 _
      rw [← h1]
      exact eraseRaiseAmounts_setChild root _ current _ hc
        (eraseRaiseAmounts_setRaiseAmount current _)
    · injection h with h
      injection h with h1 _
      rw [← h1]

/-- Two trees that differ only in stored raise amounts give the same report. -/
theorem makeDecision_report_congr (t1 t2 : DecisionNode)
    (ht : t1.eraseRaiseAmounts = t2.eraseRaiseAmounts)
    (handStrength : ℤ) (potSize toCall : ℚ) (playersCalled : ℤ) (isSuited : Bool) :
    (makeDecision t1 handStrength potSize toCall playersCalled isSuited).map Prod.snd =
      (makeDecision t2 handStrength potSize toCall playersCalled isSuited).map Prod.snd := by
  have hchild := congrArg
    (fun t => DecisionNode.child t
      (selectBranch handStrength (calculatePotOdds potSize toCall) isSuited)) ht
  simp only [child_eraseRaiseAmounts] at hchild
  unfold makeDecision makeDecisionFrom
  simp only
  cases h1 : t1.child (selectBranch handStrength (calculatePotOdds potSize toCall) isSuited)
    with
  | none =>
    cases h2 : t2.child (selectBranch handStrength (calculatePotOdds potSize toCall) isSuited)
      with
    | none => rfl
    | some c2 =>
      rw [h1, h2] at hchild
      cases hchild
  | some c1 =>
    cases h2 : t2.child (selectBranch handStrength (calculatePotOdds potSize toCall) isSuited)
      with
    | none =>
      rw [h1, h2] at hchild
      cases hchild
    | some c2 =>
      rw [h1, h2] at hchild
      have he : c1.eraseRaiseAmounts = c2.eraseRaiseAmounts := Option.some.inj hchild
      have ha : c1.action = c2.action := by
        rw [← action_eraseRaiseAmounts c1, ← action_eraseRaiseAmounts c2, he]
      cases c1
      cases c2
      simp only [DecisionNode.action] at ha
      subst ha
      simp only [DecisionNode.action, DecisionNode.setRaiseAmount, DecisionNode.raiseAmount]
      split_ifs <;> rfl

/-- A sequence of calls changes stored raise amounts only. -/
theorem runCalls_eraseRaiseAmounts (calls : List DecisionInput) :
    ∀ (root t : DecisionNode), runCalls root calls = some t →
      t.eraseRaiseAmounts = root.eraseRaiseAmounts := by
  induction calls with
  | nil =>
    intro root t h
    injection h with h
    rw [h]
  | cons c rest ih =>
    intro root t h
    unfold runCalls at h
    cases hm : makeDecision root c.handStrength c.potSize c.toCall c.playersCalled c.isSuited
      with
    | none =>
      rw [hm] at h
      cases h
    | some r =>
      obtain ⟨root1, rep⟩ := r
      rw [hm] at h
      simp only at h
      rw [ih root1 t h]
      exact makeDecision_eraseRaiseAmounts root root1 rep _ _ _ _ _ hm

/-- On a tree that differs from the tree of `main` only in stored raise amounts
every sequence of calls runs to the end. -/
theorem runCalls_isSome (calls : List DecisionInput) :
    ∀ root : DecisionNode, root.eraseRaiseAmounts = mainTree.eraseRaiseAmounts →
      ∃ t, runCalls root calls = some t := by
  induction calls with
  | nil =>
    intro root _
    exact ⟨root, rfl⟩
  | cons c rest ih =>
    intro root hroot
    have hrep := makeDecision_report_congr root mainTree hroot c.handStrength c.potSize
      c.toCall c.playersCalled c.isSuited
    cases hm : makeDecision root c.handStrength c.potSize c.toCall c.playersCalled c.isSuited
      with
    | none =>
      rw [hm] at hrep
      rcases makeDecision_mainTree_outcome c.handStrength c.potSize c.toCall c.playersCalled
        c.isSuited with h | h | h <;>
      · rw [h] at hrep
        cases hrep
    | some r =>
      obtain ⟨root1, rep⟩ := r
      have h1 := makeDecision_eraseRaiseAmounts root root1 rep _ _ _ _ _ hm
      obtain ⟨t, ht⟩ := ih root1 (h1.trans hroot)
      refine ⟨t, ?_⟩
      unfold runCalls
      rw [hm]
      exact ht

/-- C14: the report of `makeDecision` (action and raise amount) does not depend
on the raise amounts stored in the tree: two trees that differ only in stored
`raiseAmount` fields give the same report for the same inputs, so does the
tree left by any sequence of earlier calls, and on the tree of `main` every
such sequence runs to the end and the call after it reports what a first call
reports. -/
theorem makeDecision_report_independent :
    (∀ (t1 t2 : DecisionNode) (handStrength : ℤ) (potSize toCall : ℚ) (playersCalled : ℤ)
        (isSuited : Bool), t1.eraseRaiseAmounts = t2.eraseRaiseAmounts →
      (makeDecision t1 handStrength potSize toCall playersCalled isSuited).map Prod.snd =
        (makeDecision t2 handStrength potSize toCall playersCalled isSuited).map Prod.snd) ∧
    (∀ (root t : DecisionNode) (calls : List DecisionInput) (handStrength : ℤ)
        (potSize toCall : ℚ) (playersCalled : ℤ) (isSuited : Bool),
      runCalls root calls = some t →
      (makeDecision t handStrength potSize toCall playersCalled isSuited).map Prod.snd =
        (makeDecision root handStrength potSize toCall playersCalled isSuited).map Prod.snd) ∧
    (∀ (calls : List DecisionInput) (handStrength : ℤ) (potSize toCall : ℚ)
        (playersCalled : ℤ) (isSuited : Bool),
      ∃ (t : DecisionNode) (rep : Report), runCalls mainTree calls = some t ∧
        (makeDecision t handStrength potSize toCall playersCalled isSuited).map Prod.snd =
          some rep ∧
        (makeDecision mainTree handStrength potSize toCall playersCalled isSuited).map
          Prod.snd = some rep) := by
  refine ⟨?_, ?_, ?_⟩
  · intro t1 t2 handStrength potSize toCall playersCalled isSuited ht
    exact makeDecision_report_congr t1 t2 ht _ _ _ _ _
  · intro root t calls handStrength potSize toCall playersCalled isSuited h
    exact makeDecision_report_congr t root (runCalls_eraseRaiseAmounts calls root t h) _ _ _ _ _
  · intro calls handStrength potSize toCall playersCalled isSuited
    obtain ⟨t, ht⟩ := runCalls_isSome calls mainTree rfl
    have hc := makeDecision_report_congr t mainTree
      (runCalls_eraseRaiseAmounts calls mainTree t ht) handStrength potSize toCall
      playersCalled isSuited
    rcases makeDecision_mainTree_outcome handStrength potSize toCall playersCalled isSuited
      with h | h | h
    all_goals
      rw [h] at hc
      exact ⟨t, _, ht, hc, by rw [h]; rfl⟩

/-- Witness for C14: the tree of `main` and the tree that holds 17 in its raise
node give the same report. -/
theorem makeDecision_report_independent_witness :
    (makeDecision mainTree 9 7 4 2 false).map Prod.snd =
      (makeDecision (.mk "start" 0 (some (.mk "raise" 17 none none none))
        (some (.mk "call" 0 none none none)) (some (.mk "fold" 0 none none none)))
        9 7 4 2 false).map Prod.snd :=
  makeDecision_report_independent.1 mainTree
    (.mk "start" 0 (some (.mk "raise" 17 none none none))
      (some (.mk "call" 0 none none none)) (some (.mk "fold" 0 none none none)))
    9 7 4 2 false rfl

/-! ## Monotonicity of the raise amount -/

/-- The model of `std::round` is monotone. -/
theorem stdRound_mono {x y : ℚ} (h : x ≤ y) : stdRound x ≤ stdRound y := by
  by_cases hx : 0 ≤ x
  · rw [stdRound_of_nonneg hx, stdRound_of_nonneg (hx.trans h)]
    exact Int.floor_mono (by linarith)
  · have hx' : x < 0 := not_le.mp hx
    by_cases hy : 0 ≤ y
    · rw [stdRound_of_neg hx', stdRound_of_nonneg hy]
      have h1 : 0 ≤ ⌊-x + 1 / 2⌋ := Int.floor_nonneg.mpr (by linarith)
      have h2 : 0 ≤ ⌊y + 1 / 2⌋ := Int.floor_nonneg.mpr (by linarith)
      omega
    · rw [stdRound_of_neg hx', stdRound_of_neg (not_le.mp hy)]
      have h1 : ⌊-y + 1 / 2⌋ ≤ ⌊-x + 1 / 2⌋ := Int.floor_mono (by linarith)
      omega

/-- For a non-negative pot the unrounded amount does not decrease with the hand
strength. -/
theorem unroundedRaiseAmount_mono (potSize : ℚ) (h1 h2 playersCalled : ℤ)
    (potOdds : DoubleVal) (hp : 0 ≤ potSize) (hh : h1 ≤ h2) :
    unroundedRaiseAmount potSize h1 playersCalled potOdds ≤
      unroundedRaiseAmount potSize h2 playersCalled potOdds := by
  unfold unroundedRaiseAmount
  simp only
  split_ifs <;> first
    | omega
    | linarith

/-- C20: for a non-negative pot size the raise amount never decreases with a
stronger hand. -/
theorem calculateRaiseAmount_mono (potSize : ℚ) (h1 h2 playersCalled : ℤ)
    (potOdds : DoubleVal) (hp : 0 ≤ potSize) (hh : h1 ≤ h2) :
    calculateRaiseAmount potSize h1 playersCalled potOdds ≤
      calculateRaiseAmount potSize h2 playersCalled potOdds := by
  unfold calculateRaiseAmount
  simp only
  have hu := unroundedRaiseAmount_mono potSize h1 h2 playersCalled potOdds hp hh
  have hr : stdRound (unroundedRaiseAmount potSize h1 playersCalled potOdds * 2) ≤
      stdRound (unroundedRaiseAmount potSize h2 playersCalled potOdds * 2) :=
    stdRound_mono (by linarith)
  have hq : (stdRound (unroundedRaiseAmount potSize h1 playersCalled potOdds * 2) : ℚ) ≤
      (stdRound (unroundedRaiseAmount potSize h2 playersCalled potOdds * 2) : ℚ) := by
    exact_mod_cast hr
  linarith

/-- Witness for C20: pot 7, two callers, pot odds 175: strength 6 against
strength 9. -/
theorem calculateRaiseAmount_mono_witness :
    calculateRaiseAmount 7 6 2 (.fin 175) ≤ calculateRaiseAmount 7 9 2 (.fin 175) :=
  calculateRaiseAmount_mono 7 6 9 2 (.fin 175) (by norm_num) (by decide)

end PokerDecisionTree
